import Mathlib

/-!
Shallow embedding of the WhisPlay display driver
(`whisplaydriver.py`, class `WhisPlayBoard`) and of the pwnagotchi
display adapter (`whisplay.py`, class `Whisplay`).

Modelling conventions:
* SPI/GPIO traffic is modelled as a list of `BusEvent`s: a command byte
  (sent with the data/command line low) or a data payload (line high).
* Python integers are `ℤ` (coordinates may be negative); Python's
  `x >> 8` is floor division by 256 and `x & 0xFF` is the nonnegative
  remainder mod 256.
* Python float arithmetic in the render geometry and the RGB fade is
  idealised as exact rational arithmetic (`ℚ`); `int()` is truncation
  toward zero (`pyInt`).
* Hardware state that is irrelevant to the claims (GPIO setup success,
  lazy PWM-channel creation, sleeping) is fixed to the successful path
  and noted per definition.
-/

namespace Whisplay

/-- Constant `WhisPlayBoard.LCD_WIDTH`. -/
def LCD_WIDTH : ℕ := 240

/-- Constant `WhisPlayBoard.LCD_HEIGHT`. -/
def LCD_HEIGHT : ℕ := 280

/-- One unit of SPI traffic: a command byte (D/C low) or a data payload
(D/C high), as produced by `_send_command` / `_send_data`. -/
inductive BusEvent where
  | command (code : ℕ)
  | data (bytes : List ℤ)
deriving DecidableEq

/-- Python `v >> 8` on an `int` (arithmetic shift = floor division). -/
def pyShr8 (v : ℤ) : ℤ := Int.fdiv v 256

/-- Python `v & 0xFF` on an `int` (nonnegative remainder mod 256). -/
def pyAnd255 (v : ℤ) : ℤ := Int.emod v 256

/-- Model of `WhisPlayBoard._send_command(cmd, *args)`: one command byte, then the
argument bytes as data if any were given. -/
def send_command (cmd : ℕ) (args : List ℤ) : List BusEvent :=
  BusEvent.command cmd :: (if args = [] then [] else [BusEvent.data args])

/-- Model of `WhisPlayBoard.set_window(x0, y0, x1, y1, use_horizontal=0)`:
column (0x2A) and row (0x2B) address commands — with the 20-pixel offset
on the row axis for modes 0/1 and on the column axis for modes 2/3, and
neither command for any other mode — followed by memory write (0x2C). -/
def set_window (x0 y0 x1 y1 : ℤ) (use_horizontal : ℤ) : List BusEvent :=
  (if use_horizontal = 0 ∨ use_horizontal = 1 then
    send_command 0x2A [pyShr8 x0, pyAnd255 x0, pyShr8 x1, pyAnd255 x1] ++
    send_command 0x2B [pyShr8 (y0 + 20), pyAnd255 (y0 + 20),
                       pyShr8 (y1 + 20), pyAnd255 (y1 + 20)]
  else if use_horizontal = 2 ∨ use_horizontal = 3 then
    send_command 0x2A [pyShr8 (x0 + 20), pyAnd255 (x0 + 20),
                       pyShr8 (x1 + 20), pyAnd255 (x1 + 20)] ++
    send_command 0x2B [pyShr8 y0, pyAnd255 y0, pyShr8 y1, pyAnd255 y1]
  else []) ++ send_command 0x2C []

/-- Model of `WhisPlayBoard.draw_pixel(x, y, color)`: returns early (no traffic)
when `x >= LCD_WIDTH or y >= LCD_HEIGHT`; otherwise sets a 1×1 window
(default orientation 0) and sends the two big-endian color bytes. -/
def draw_pixel (x y color : ℤ) : List BusEvent :=
  if (LCD_WIDTH : ℤ) ≤ x ∨ (LCD_HEIGHT : ℤ) ≤ y then []
  else set_window x y x y 0 ++
    [BusEvent.data [pyAnd255 (pyShr8 color), pyAnd255 color]]

/-- Model of `WhisPlayBoard.draw_image(x, y, width, height, pixel_data)`: raises
`ValueError` when `x + width > LCD_WIDTH or y + height > LCD_HEIGHT`,
before any bus traffic; otherwise sets the window and streams the
caller's buffer verbatim. -/
def draw_image (x y width height : ℤ) (pixel_data : List ℤ) :
    Except String (List BusEvent) :=
  if (LCD_WIDTH : ℤ) < x + width ∨ (LCD_HEIGHT : ℤ) < y + height then
    Except.error "image size exceeds screen bounds"
  else
    Except.ok (set_window x y (x + width - 1) (y + height - 1) 0 ++
      [BusEvent.data pixel_data])

/-- Effect of one `WhisPlayBoard.set_backlight` call: a PWM duty-cycle
change, a plain GPIO level write (`high = true` means `GPIO.HIGH`), or
nothing. -/
inductive BacklightAction where
  | duty (d : ℤ)
  | level (high : Bool)
  | skip
deriving DecidableEq

/-- Model of `WhisPlayBoard.set_backlight(brightness)` on the successful path
(`_gpio_initialized` true, PWM channel creation succeeds). In PWM mode
(`backlight_mode` true) a brightness in `[0,100]` sets duty `100 -
brightness` and anything else does nothing; in switch mode brightness 0
writes `GPIO.HIGH` (backlight off — the line is active-low) and any
other value writes `GPIO.LOW` (backlight on). -/
def set_backlight (pwm_mode : Bool) (brightness : ℤ) : BacklightAction :=
  if pwm_mode then
    if 0 ≤ brightness ∧ brightness ≤ 100 then
      BacklightAction.duty (100 - brightness)
    else BacklightAction.skip
  else
    if brightness = 0 then BacklightAction.level true
    else BacklightAction.level false

/-- The stored RGB LED channel values `_current_r/_current_g/_current_b`. -/
structure RGBState where
  r : ℤ
  g : ℤ
  b : ℤ
deriving DecidableEq

/-- Duty cycle computed by `set_rgb` for one channel:
`100 - (value / 255 * 100)` (the LED lines are active-low). -/
def dutyOf (v : ℤ) : ℚ := 100 - ((v : ℚ) / 255 * 100)

/-- Model of `WhisPlayBoard.set_rgb(r, g, b)`: when all three PWM channels exist
(`pwm = true`) it applies the three duty cycles and stores the arguments
as the current channel values; when any channel is `None` it returns
immediately, leaving the stored state unchanged. Returns the new stored
state and the duty triple applied (if any). -/
def set_rgb (pwm : Bool) (s : RGBState) (rv gv bv : ℤ) :
    RGBState × Option (ℚ × ℚ × ℚ) :=
  if pwm then (⟨rv, gv, bv⟩, some (dutyOf rv, dutyOf gv, dutyOf bv))
  else (s, none)

/-- Python `int()` on a float/rational: truncation toward zero. -/
def pyInt (q : ℚ) : ℤ := if 0 ≤ q then ⌊q⌋ else -⌊-q⌋

/-- Python `max(0, min(255, v))` as used in `set_rgb_fade`. -/
def clamp255 (v : ℤ) : ℤ := max 0 (min 255 v)

/-- The loop body of `WhisPlayBoard.set_rgb_fade`, iterating loop index
`i` for `n` more iterations. Each iteration reads the *current* stored
state `s` (which the previous iteration's `set_rgb` mutated), computes
`int(current + i * step)` per channel, clamps to `[0,255]`, and calls
`set_rgb` with the clamped triple. Returns the list of triples passed to
`set_rgb` and the final stored state. -/
def fadeSteps (pwm : Bool) (rs gs bs : ℚ) (s : RGBState) :
    ℕ → ℕ → List RGBState × RGBState
  | _, 0 => ([], s)
  | i, n + 1 =>
    let a : RGBState :=
      ⟨clamp255 (pyInt ((s.r : ℚ) + (i : ℚ) * rs)),
       clamp255 (pyInt ((s.g : ℚ) + (i : ℚ) * gs)),
       clamp255 (pyInt ((s.b : ℚ) + (i : ℚ) * bs))⟩
    let s2 := (set_rgb pwm s a.r a.g a.b).1
    let rest := fadeSteps pwm rs gs bs s2 (i + 1) n
    (a :: rest.1, rest.2)

/-- Result of one `set_rgb_fade` call: the triples applied via `set_rgb`
(in order), the final stored state, and the per-iteration sleep in ms. -/
structure FadeRun where
  samples : List RGBState
  final : RGBState
  delay_ms : ℚ
deriving DecidableEq

/-- Model of `WhisPlayBoard.set_rgb_fade(r_target, g_target, b_target,
duration_ms)`: `steps = 20`, per-channel slope
`(target - current) / steps` computed once from the stored state at
entry, then `steps + 1` loop iterations (indices 0..20), sleeping
`duration_ms / steps` ms after each. -/
def set_rgb_fade (pwm : Bool) (s : RGBState) (rt gt bt : ℤ)
    (duration_ms : ℚ) : FadeRun :=
  let steps : ℕ := 20
  let rs : ℚ := ((rt : ℚ) - (s.r : ℚ)) / (steps : ℚ)
  let gs : ℚ := ((gt : ℚ) - (s.g : ℚ)) / (steps : ℚ)
  let bs : ℚ := ((bt : ℚ) - (s.b : ℚ)) / (steps : ℚ)
  let out := fadeSteps pwm rs gs bs s 0 (steps + 1)
  ⟨out.1, out.2, duration_ms / (steps : ℚ)⟩

/-- RGB565 packing from `Whisplay.render`:
`((r & 0xF8) << 8) | ((g & 0xFC) << 3) | (b >> 3)`. -/
def rgb565 (r g b : ℕ) : ℕ :=
  ((r &&& 0xF8) <<< 8) ||| ((g &&& 0xFC) <<< 3) ||| (b >>> 3)

/-- Canonical 565 field extraction, spec side: the 5-bit red, 6-bit
green and 5-bit blue fields shifted back into the top bits of an 8-bit
channel ("decoding the top bits back"). -/
def decode565 (v : ℕ) : ℕ × ℕ × ℕ :=
  ((v >>> 11) <<< 3, ((v >>> 5) &&& 0x3F) <<< 2, (v &&& 0x1F) <<< 3)

/-- A PIL-style in-memory RGB image: dimensions plus a pixel lookup. -/
structure PImage where
  width : ℕ
  height : ℕ
  px : ℕ → ℕ → ℕ × ℕ × ℕ

/-- Model of PIL `Image.crop((l, u, r, d))`: the result has size `(r-l) × (d-u)`;
pixels outside the source are black. -/
def pilCrop (img : PImage) (l u r d : ℕ) : PImage :=
  ⟨r - l, d - u, fun x y =>
    if l + x < img.width ∧ u + y < img.height then img.px (l + x) (u + y)
    else (0, 0, 0)⟩

/-- Constant `screen_aspect_ratio = screen_width / screen_height` in
`Whisplay.render`. -/
def screen_aspect : ℚ := (LCD_WIDTH : ℚ) / (LCD_HEIGHT : ℚ)

/-- The scale-and-crop geometry computed by `Whisplay.render`:
resize target size and the crop box handed to `Image.crop`. -/
structure CropGeom where
  wider : Bool
  newW : ℤ
  newH : ℤ
  cropL : ℤ
  cropU : ℤ
  cropR : ℤ
  cropD : ℤ
deriving DecidableEq

/-- Geometry part of `Whisplay.render` (lines 69–93): aspect ratios as
exact rationals, `int()` as truncation. If the source is relatively
wider (`aspect_ratio > screen_aspect_ratio`) it scales to screen height
and center-crops horizontally, else it scales to screen width and
center-crops vertically (`//` is floor division). -/
def renderGeom (w h : ℕ) : CropGeom :=
  let aspect : ℚ := (w : ℚ) / (h : ℚ)
  if screen_aspect < aspect then
    let nw := pyInt ((LCD_HEIGHT : ℚ) * aspect)
    let offX := Int.fdiv (nw - (LCD_WIDTH : ℤ)) 2
    ⟨true, nw, (LCD_HEIGHT : ℤ), offX, 0, offX + (LCD_WIDTH : ℤ), (LCD_HEIGHT : ℤ)⟩
  else
    let nh := pyInt ((LCD_WIDTH : ℚ) / aspect)
    let offY := Int.fdiv (nh - (LCD_HEIGHT : ℤ)) 2
    ⟨false, (LCD_WIDTH : ℤ), nh, 0, offY, (LCD_WIDTH : ℤ), offY + (LCD_HEIGHT : ℤ)⟩

/-- Byte-stream part of `Whisplay.render` (lines 96–104): for `y` in
`range(screen_height)`, `x` in `range(screen_width)`, convert the
cropped image's pixel to RGB565 and append its high byte then low
byte. -/
def pixelBytes (img : PImage) : List ℤ :=
  (List.range LCD_HEIGHT).flatMap fun y =>
    (List.range LCD_WIDTH).flatMap fun x =>
      let p := img.px x y
      let v := rgb565 p.1 p.2.1 p.2.2
      [((v >>> 8) &&& 0xFF : ℕ), (v &&& 0xFF : ℕ)].map Int.ofNat

/-- Model of `Whisplay.render(canvas)` after normalisation to RGB: compute the
geometry, resize (the resampling kernel is PIL's and is abstracted as
the parameter `resample`), crop, and pack the RGB565 byte stream. -/
def render (resample : PImage → ℕ → ℕ → PImage) (img : PImage) : List ℤ :=
  let g := renderGeom img.width img.height
  let resized := resample img g.newW.toNat g.newH.toNat
  let cropped := pilCrop resized g.cropL.toNat g.cropU.toNat g.cropR.toNat g.cropD.toNat
  pixelBytes cropped

/-- The final call of `Whisplay.render`:
`draw_image(0, 0, screen_width, screen_height, pixel_data)`. -/
def renderBlit (resample : PImage → ℕ → ℕ → PImage) (img : PImage) :
    Except String (List BusEvent) :=
  draw_image 0 0 (LCD_WIDTH : ℤ) (LCD_HEIGHT : ℤ) (render resample img)

/-! ### Theorems -/

/-- C10: for every orientation mode value outside `{0,1,2,3}`,
`set_window` issues no column-address (0x2A) or row-address (0x2B)
command, but still issues the memory-write command 0x2C with no
arguments, priming the panel for a data stream with whatever window was
previously established. -/
theorem set_window_unknown_mode (x0 y0 x1 y1 m : ℤ)
    (h0 : m ≠ 0) (h1 : m ≠ 1) (h2 : m ≠ 2) (h3 : m ≠ 3) :
    set_window x0 y0 x1 y1 m = [BusEvent.command 0x2C] := by
  simp [set_window, send_command, h0, h1, h2, h3]

theorem set_window_unknown_mode_witness :
    set_window 5 6 7 8 4 = [BusEvent.command 0x2C] :=
  set_window_unknown_mode 5 6 7 8 4 (by norm_num) (by norm_num)
    (by norm_num) (by norm_num)

/-- C4: `draw_image(x, y, width, height, pixel_data)` errors exactly
when `x + width` exceeds the panel width or `y + height` exceeds the
panel height; on error it produces no bus traffic at all, and otherwise
it sets the window `(x, y, x+width-1, y+height-1)` and streams the
caller-supplied buffer verbatim. -/
theorem draw_image_bounds_spec (x y w h : ℤ) (pd : List ℤ) :
    ((∃ e, draw_image x y w h pd = Except.error e) ↔
      ((LCD_WIDTH : ℤ) < x + w ∨ (LCD_HEIGHT : ℤ) < y + h)) ∧
    (((LCD_WIDTH : ℤ) < x + w ∨ (LCD_HEIGHT : ℤ) < y + h) →
      draw_image x y w h pd =
        Except.error "image size exceeds screen bounds") ∧
    (¬((LCD_WIDTH : ℤ) < x + w ∨ (LCD_HEIGHT : ℤ) < y + h) →
      draw_image x y w h pd =
        Except.ok (set_window x y (x + w - 1) (y + h - 1) 0 ++
          [BusEvent.data pd])) := by
  unfold draw_image
  split <;> simp_all

theorem draw_image_bounds_spec_witness :
    draw_image 0 0 240 280 [] =
      Except.ok (set_window 0 0 (0 + 240 - 1) (0 + 280 - 1) 0 ++
        [BusEvent.data []]) :=
  (draw_image_bounds_spec 0 0 240 280 []).2.2
    (by norm_num [LCD_WIDTH, LCD_HEIGHT])

/-- C5 counterexample: the claim says every coordinate outside
`[0, width) × [0, height)` — *including negative coordinates* — is a
silent no-op with no bus writes. But `draw_pixel` only checks
`x >= LCD_WIDTH or y >= LCD_HEIGHT`, so at the out-of-geometry
coordinate `(-1, 0)` it does produce bus traffic. -/
theorem draw_pixel_negative_counterexample :
    (-1 : ℤ) < 0 ∧ draw_pixel (-1) 0 0 ≠ [] := by
  constructor
  · norm_num
  · simp [draw_pixel, set_window, send_command, LCD_WIDTH, LCD_HEIGHT]

/-- C5 amended: a single-pixel draw is a silent no-op (no bus writes)
exactly when `x ≥ panel width` or `y ≥ panel height`; for every other
coordinate — negative ones included — it sets a 1×1 window at `(x,y)`
and streams the pixel's 2-byte big-endian color. -/
theorem draw_pixel_amended_spec (x y c : ℤ) :
    (((LCD_WIDTH : ℤ) ≤ x ∨ (LCD_HEIGHT : ℤ) ≤ y) →
      draw_pixel x y c = []) ∧
    (x < (LCD_WIDTH : ℤ) → y < (LCD_HEIGHT : ℤ) →
      draw_pixel x y c = set_window x y x y 0 ++
        [BusEvent.data [pyAnd255 (pyShr8 c), pyAnd255 c]]) := by
  constructor
  · intro h
    simp [draw_pixel, h]
  · intro hx hy
    have : ¬((LCD_WIDTH : ℤ) ≤ x ∨ (LCD_HEIGHT : ℤ) ≤ y) := by
      push_neg
      exact ⟨hx, hy⟩
    simp [draw_pixel, this]

theorem draw_pixel_amended_spec_witness :
    draw_pixel 10 20 43981 = set_window 10 20 10 20 0 ++
      [BusEvent.data [pyAnd255 (pyShr8 43981), pyAnd255 43981]] :=
  (draw_pixel_amended_spec 10 20 43981).2
    (by norm_num [LCD_WIDTH]) (by norm_num [LCD_HEIGHT])

/-- C8: for brightness in `[0,100]`: in PWM mode `set_backlight` sets
the duty cycle to exactly `100 - brightness`; in switch mode brightness
0 drives the backlight line to `GPIO.HIGH` — the inactive (off) level of
the active-low line — and any nonzero brightness drives it to
`GPIO.LOW`, the active (on) level, with no intermediate dimming. -/
theorem set_backlight_spec (b : ℤ) (hb0 : 0 ≤ b) (hb1 : b ≤ 100) :
    set_backlight true b = BacklightAction.duty (100 - b) ∧
    set_backlight false 0 = BacklightAction.level true ∧
    (b ≠ 0 → set_backlight false b = BacklightAction.level false) := by
  refine ⟨?_, ?_, ?_⟩
  · simp [set_backlight, hb0, hb1]
  · simp [set_backlight]
  · intro hb
    simp [set_backlight, hb]

theorem set_backlight_spec_witness :
    set_backlight true 50 = BacklightAction.duty (100 - 50) ∧
    set_backlight false 0 = BacklightAction.level true ∧
    ((50 : ℤ) ≠ 0 → set_backlight false 50 = BacklightAction.level false) :=
  set_backlight_spec 50 (by norm_num) (by norm_num)

/-- Full evaluation of `set_rgb_fade` from stored `(0,0,0)` to target
`(255,255,255)` over 100 ms: the 21 triples passed to `set_rgb`, the
final stored state, and the 5 ms per-iteration sleep. Note the sequence
is *not* linear: each iteration interpolates from the stored value that
the previous iteration's `set_rgb` call just overwrote. -/
lemma fade_full_run_eval :
    set_rgb_fade true ⟨0, 0, 0⟩ 255 255 255 100 =
      ⟨[⟨0,0,0⟩, ⟨12,12,12⟩, ⟨37,37,37⟩, ⟨75,75,75⟩, ⟨126,126,126⟩,
        ⟨189,189,189⟩, ⟨255,255,255⟩, ⟨255,255,255⟩, ⟨255,255,255⟩,
        ⟨255,255,255⟩, ⟨255,255,255⟩, ⟨255,255,255⟩, ⟨255,255,255⟩,
        ⟨255,255,255⟩, ⟨255,255,255⟩, ⟨255,255,255⟩, ⟨255,255,255⟩,
        ⟨255,255,255⟩, ⟨255,255,255⟩, ⟨255,255,255⟩, ⟨255,255,255⟩],
       ⟨255,255,255⟩, 5⟩ := by
  norm_num [set_rgb_fade, fadeSteps, set_rgb, pyInt, clamp255]

/-- C6: the claim says each per-step value is linear interpolation from
the channel values stored *at the moment the fade started*. The code
instead re-reads the mutable stored value each iteration — which the
previous iteration's `set_rgb` call just replaced — so the applied
sequence is a feedback recurrence, not start-anchored linear
interpolation: fading `(0,0,0) → (255,255,255)` over 100 ms, loop index
2 applies channel value 37, while linear interpolation from the start
(`clamp(int(0 + 2 * (255 - 0) / 20))`) gives 25. -/
theorem fade_feedback_divergence :
    (set_rgb_fade true ⟨0, 0, 0⟩ 255 255 255 100).samples.get? 2 =
      some ⟨37, 37, 37⟩ ∧
    clamp255 (pyInt (((0 : ℤ) : ℚ) + (2 : ℚ) * (((255 : ℚ) - 0) / 20))) = 25 ∧
    (37 : ℤ) ≠ 25 := by
  refine ⟨?_, ?_, by norm_num⟩
  · rw [fade_full_run_eval]
    rfl
  · norm_num [pyInt, clamp255]

/-- C7: a fade from stored `(0,0,0)` to target `(255,255,255)` over
100 ms applies 21 samples (loop indices 0 through 20 inclusive), whose
channel values form a monotonically non-decreasing sequence ending
exactly at `(255,255,255)`. -/
theorem fade_monotone_run :
    (set_rgb_fade true ⟨0, 0, 0⟩ 255 255 255 100).samples.length = 21 ∧
    List.Chain' (fun a b : RGBState => a.r ≤ b.r ∧ a.g ≤ b.g ∧ a.b ≤ b.b)
      (set_rgb_fade true ⟨0, 0, 0⟩ 255 255 255 100).samples ∧
    (set_rgb_fade true ⟨0, 0, 0⟩ 255 255 255 100).samples.getLast? =
      some ⟨255, 255, 255⟩ := by
  rw [fade_full_run_eval]
  refine ⟨by decide, ?_, by decide⟩
  norm_num [List.chain'_cons, List.chain'_singleton]

/-- Applying `pyInt` to an integer gives it back. -/
lemma pyInt_intCast (n : ℤ) : pyInt ((n : ℤ) : ℚ) = n := by
  unfold pyInt
  split
  · simp
  · rw [← Int.cast_neg, Int.floor_intCast, neg_neg]

/-- C9: whenever `set_rgb` runs with all PWM channels present, the
stored current channel values become exactly its arguments; when a
channel is absent, `set_rgb` is a no-op and the stored values are
unchanged. A subsequent fade starts its interpolation from the stored
values: its first applied sample is the stored triple itself (the
stored values being in `[0,255]`). -/
theorem set_rgb_state_invariant (s : RGBState) (rv gv bv rt gt bt : ℤ)
    (d : ℚ) :
    (set_rgb true s rv gv bv).1 = ⟨rv, gv, bv⟩ ∧
    set_rgb false s rv gv bv = (s, none) ∧
    (0 ≤ s.r → s.r ≤ 255 → 0 ≤ s.g → s.g ≤ 255 → 0 ≤ s.b → s.b ≤ 255 →
      (set_rgb_fade true s rt gt bt d).samples.head? = some s) := by
  refine ⟨by simp [set_rgb], by simp [set_rgb], ?_⟩
  intro h1 h2 h3 h4 h5 h6
  show (fadeSteps true _ _ _ s 0 (20 + 1)).1.head? = _
  simp only [fadeSteps, List.head?_cons, Nat.cast_zero, zero_mul,
    add_zero, pyInt_intCast]
  have c1 : clamp255 s.r = s.r := by unfold clamp255; omega
  have c2 : clamp255 s.g = s.g := by unfold clamp255; omega
  have c3 : clamp255 s.b = s.b := by unfold clamp255; omega
  simp [c1, c2, c3]

theorem set_rgb_state_invariant_witness :
    (set_rgb true ⟨3, 4, 5⟩ 7 8 9).1 = ⟨7, 8, 9⟩ ∧
    set_rgb false ⟨3, 4, 5⟩ 7 8 9 = (⟨3, 4, 5⟩, none) ∧
    (set_rgb_fade true ⟨3, 4, 5⟩ 200 100 50 100).samples.head? =
      some ⟨3, 4, 5⟩ := by
  have h := set_rgb_state_invariant ⟨3, 4, 5⟩ 7 8 9 200 100 50 100
  exact ⟨h.1, h.2.1, h.2.2 (by norm_num) (by norm_num) (by norm_num)
    (by norm_num) (by norm_num) (by norm_num)⟩

set_option maxRecDepth 10000 in
/-- Python `r & 0xF8` clears the low three bits of a byte. -/
lemma byte_and_248 : ∀ r, r < 256 → r &&& 248 = 8 * (r / 8) := by decide

set_option maxRecDepth 10000 in
/-- Python `g & 0xFC` clears the low two bits of a byte. -/
lemma byte_and_252 : ∀ g, g < 256 → g &&& 252 = 4 * (g / 4) := by decide

set_option maxRecDepth 10000 in
/-- Python `b >> 3` is division by 8 on a byte. -/
lemma byte_shr_3 : ∀ b, b < 256 → b >>> 3 = b / 8 := by decide

/-- Packing three disjoint fields (5-bit red, 6-bit green, 5-bit blue)
by shift-and-or equals the weighted sum `2048R + 32G + B`. -/
lemma pack565 (R G B : ℕ) (hG : G < 64) (hB : B < 32) :
    ((8 * R) <<< 8) ||| ((4 * G) <<< 3) ||| B = 2048 * R + 32 * G + B := by
  rw [Nat.shiftLeft_eq, Nat.shiftLeft_eq, Nat.or_assoc]
  have e1 : 4 * G * 2 ^ 3 = 2 ^ 5 * G := by ring
  have e2 : 8 * R * 2 ^ 8 = 2 ^ 11 * R := by ring
  rw [e1, ← Nat.mul_add_lt_is_or (by omega : B < 2 ^ 5) G, e2,
    ← Nat.mul_add_lt_is_or (by omega : 2 ^ 5 * G + B < 2 ^ 11) R]
  ring

/-- Unpacking the weighted sum recovers each field shifted back into the
top bits of its byte. -/
lemma unpack565 (R G B : ℕ) (hG : G < 64) (hB : B < 32) :
    decode565 (2048 * R + 32 * G + B) = (8 * R, 4 * G, 8 * B) := by
  unfold decode565
  have h63 : (0x3F : ℕ) = 2 ^ 6 - 1 := by norm_num
  have h31 : (0x1F : ℕ) = 2 ^ 5 - 1 := by norm_num
  rw [Nat.shiftRight_eq_div_pow, Nat.shiftRight_eq_div_pow, h63, h31,
    Nat.and_pow_two_sub_one_eq_mod, Nat.and_pow_two_sub_one_eq_mod,
    Nat.shiftLeft_eq, Nat.shiftLeft_eq, Nat.shiftLeft_eq]
  refine Prod.ext ?_ (Prod.ext ?_ ?_) <;> simp <;> omega

/-- C3: for every `(r,g,b)` with each channel in `[0,255]`, encoding via
`rgb565` and decoding the 5/6/5 fields back into the top bits yields
`r' = r & 0xF8`, `g' = g & 0xFC`, `b' = b & 0xF8`; and re-encoding
`(r',g',b')` yields the same 16-bit value (idempotence under
re-encoding). -/
theorem rgb565_roundtrip (r g b : ℕ)
    (hr : r ≤ 255) (hg : g ≤ 255) (hb : b ≤ 255) :
    decode565 (rgb565 r g b) = (r &&& 0xF8, g &&& 0xFC, b &&& 0xF8) ∧
    rgb565 (r &&& 0xF8) (g &&& 0xFC) (b &&& 0xF8) = rgb565 r g b := by
  have hr' : r < 256 := by omega
  have hg' : g < 256 := by omega
  have hb' : b < 256 := by omega
  have er := byte_and_248 r hr'
  have eg := byte_and_252 g hg'
  have eb := byte_shr_3 b hb'
  have ebb := byte_and_248 b hb'
  have hR : r / 8 < 32 := by omega
  have hG : g / 4 < 64 := by omega
  have hB : b / 8 < 32 := by omega
  have key : rgb565 r g b = 2048 * (r / 8) + 32 * (g / 4) + b / 8 := by
    unfold rgb565
    rw [er, eg, eb, pack565 _ _ _ hG hB]
  constructor
  · rw [key, unpack565 _ _ _ hG hB, er, eg, ebb]
  · have er2 := byte_and_248 (8 * (r / 8)) (by omega)
    have eg2 := byte_and_252 (4 * (g / 4)) (by omega)
    have eb2 := byte_shr_3 (8 * (b / 8)) (by omega)
    have key2 : rgb565 (r &&& 0xF8) (g &&& 0xFC) (b &&& 0xF8) =
        2048 * (r / 8) + 32 * (g / 4) + b / 8 := by
      unfold rgb565
      rw [er, eg, ebb, er2, eg2, eb2,
        Nat.mul_div_cancel_left _ (by norm_num : (0:ℕ) < 8),
        Nat.mul_div_cancel_left _ (by norm_num : (0:ℕ) < 4),
        Nat.mul_div_cancel_left _ (by norm_num : (0:ℕ) < 8),
        pack565 _ _ _ hG hB]
    rw [key2, key]

theorem rgb565_roundtrip_witness :
    decode565 (rgb565 250 100 9) =
      (250 &&& 0xF8, 100 &&& 0xFC, 9 &&& 0xF8) ∧
    rgb565 (250 &&& 0xF8) (100 &&& 0xFC) (9 &&& 0xF8) = rgb565 250 100 9 :=
  rgb565_roundtrip 250 100 9 (by norm_num) (by norm_num) (by norm_num)

/-- Flattening a constant-length family over `range n` yields `n * c`
elements. -/
lemma range_flatMap_const_length {α : Type} (f : ℕ → List α) (c n : ℕ)
    (hc : ∀ x, (f x).length = c) :
    ((List.range n).flatMap f).length = n * c := by
  induction n with
  | zero => simp
  | succ n ih =>
      rw [List.range_succ, List.flatMap_append, List.length_append, ih]
      simp [hc, Nat.succ_mul]

/-- The packed byte stream always has `2` bytes per destination pixel for
all `LCD_WIDTH * LCD_HEIGHT` destination pixels, whatever the image. -/
lemma pixelBytes_length (img : PImage) :
    (pixelBytes img).length = LCD_WIDTH * LCD_HEIGHT * 2 := by
  unfold pixelBytes
  rw [range_flatMap_const_length _ (LCD_WIDTH * 2)]
  · ring
  · intro y
    rw [range_flatMap_const_length _ 2]
    intro x
    simp

/-- C1: for every source image with non-zero width and height, `render`
produces a pixel byte stream of length exactly
`LCD_WIDTH * LCD_HEIGHT * 2 = 240 * 280 * 2` bytes, regardless of the
source dimensions, and passes it to `draw_image` at `(0, 0)` — which
accepts it and streams it after the full-panel window. The PIL
resampling kernel is abstracted as `resample`; the byte count does not
depend on it. -/
theorem render_length_and_blit (resample : PImage → ℕ → ℕ → PImage)
    (img : PImage) (hw : 0 < img.width) (hh : 0 < img.height) :
    (render resample img).length = LCD_WIDTH * LCD_HEIGHT * 2 ∧
    LCD_WIDTH * LCD_HEIGHT * 2 = 134400 ∧
    renderBlit resample img =
      Except.ok (set_window 0 0 239 279 0 ++
        [BusEvent.data (render resample img)]) := by
  refine ⟨pixelBytes_length _, by norm_num [LCD_WIDTH, LCD_HEIGHT], ?_⟩
  unfold renderBlit draw_image
  norm_num [LCD_WIDTH, LCD_HEIGHT]

theorem render_length_and_blit_witness :
    (render (fun im w h => ⟨w, h, im.px⟩) ⟨1, 1, fun _ _ => (0, 0, 0)⟩).length =
      LCD_WIDTH * LCD_HEIGHT * 2 ∧
    LCD_WIDTH * LCD_HEIGHT * 2 = 134400 ∧
    renderBlit (fun im w h => ⟨w, h, im.px⟩) ⟨1, 1, fun _ _ => (0, 0, 0)⟩ =
      Except.ok (set_window 0 0 239 279 0 ++
        [BusEvent.data (render (fun im w h => ⟨w, h, im.px⟩)
          ⟨1, 1, fun _ _ => (0, 0, 0)⟩)]) :=
  render_length_and_blit _ _ (by norm_num) (by norm_num)

/-- Applying `pyInt` to a nonnegative rational gives its floor. -/
lemma pyInt_of_nonneg (q : ℚ) (h : 0 ≤ q) : pyInt q = ⌊q⌋ := if_pos h

/-- C2 counterexample: the claim says the resized width in the wider
branch is `round(resizedHeight * aspect)`. For a 13×15 source (which
takes the wider branch, since 13/15 > 240/280) the code's `int()`
truncation gives `int(280 * 13/15) = 242`, while rounding gives 243. -/
theorem renderGeom_round_counterexample :
    screen_aspect < (13 : ℚ) / 15 ∧
    (renderGeom 13 15).newW = 242 ∧
    round ((LCD_HEIGHT : ℚ) * ((13 : ℚ) / 15)) = 243 ∧
    (renderGeom 13 15).newW ≠ round ((LCD_HEIGHT : ℚ) * ((13 : ℚ) / 15)) := by
  have h1 : screen_aspect < (13 : ℚ) / 15 := by
    norm_num [screen_aspect, LCD_WIDTH, LCD_HEIGHT]
  have h2 : (renderGeom 13 15).newW = 242 := by
    norm_num [renderGeom, screen_aspect, pyInt, LCD_WIDTH, LCD_HEIGHT]
  have h3 : round ((LCD_HEIGHT : ℚ) * ((13 : ℚ) / 15)) = 243 := by
    norm_num [round_eq, LCD_HEIGHT]
  exact ⟨h1, h2, h3, by rw [h2, h3]; norm_num⟩

/-- C2 amended: for every non-degenerate source, if
`aspect = srcW/srcH` exceeds the panel aspect `240/280`, the code scales
so resized height = panel height and resized width =
`⌊resizedHeight * aspect⌋` (truncation, not rounding), then crops the
horizontal window `[offX, offX + 240)` with
`offX = (resizedWidth - 240) // 2` (left side cropped by the floored
half-difference, the right side absorbing any odd remainder); otherwise
— equal aspect ratios included — it scales so resized width = panel
width and resized height = `⌊resizedWidth / aspect⌋`, then crops the
vertical window `[offY, offY + 280)` with
`offY = (resizedHeight - 280) // 2`. -/
theorem renderGeom_floor_spec (w h : ℕ) (hw : 0 < w) (hh : 0 < h) :
    (screen_aspect < (w : ℚ) / (h : ℚ) →
      renderGeom w h =
        ⟨true, ⌊(LCD_HEIGHT : ℚ) * ((w : ℚ) / (h : ℚ))⌋, (LCD_HEIGHT : ℤ),
         Int.fdiv (⌊(LCD_HEIGHT : ℚ) * ((w : ℚ) / (h : ℚ))⌋ - (LCD_WIDTH : ℤ)) 2,
         0,
         Int.fdiv (⌊(LCD_HEIGHT : ℚ) * ((w : ℚ) / (h : ℚ))⌋ - (LCD_WIDTH : ℤ)) 2 +
           (LCD_WIDTH : ℤ),
         (LCD_HEIGHT : ℤ)⟩) ∧
    (¬ screen_aspect < (w : ℚ) / (h : ℚ) →
      renderGeom w h =
        ⟨false, (LCD_WIDTH : ℤ), ⌊(LCD_WIDTH : ℚ) / ((w : ℚ) / (h : ℚ))⌋,
         0,
         Int.fdiv (⌊(LCD_WIDTH : ℚ) / ((w : ℚ) / (h : ℚ))⌋ - (LCD_HEIGHT : ℤ)) 2,
         (LCD_WIDTH : ℤ),
         Int.fdiv (⌊(LCD_WIDTH : ℚ) / ((w : ℚ) / (h : ℚ))⌋ - (LCD_HEIGHT : ℤ)) 2 +
           (LCD_HEIGHT : ℤ)⟩) := by
  constructor
  · intro hcond
    have hpos : (0 : ℚ) ≤ (LCD_HEIGHT : ℚ) * ((w : ℚ) / (h : ℚ)) := by
      positivity
    simp only [renderGeom, if_pos hcond, pyInt_of_nonneg _ hpos]
  · intro hcond
    have hpos : (0 : ℚ) ≤ (LCD_WIDTH : ℚ) / ((w : ℚ) / (h : ℚ)) := by
      positivity
    simp only [renderGeom, if_neg hcond, pyInt_of_nonneg _ hpos]

theorem renderGeom_floor_spec_witness :
    renderGeom 400 200 = ⟨true, 560, 280, 160, 0, 400, 280⟩ := by
  have hcond : screen_aspect < (400 : ℕ) / ((200 : ℕ) : ℚ) := by
    norm_num [screen_aspect, LCD_WIDTH, LCD_HEIGHT]
  have h := (renderGeom_floor_spec 400 200 (by norm_num) (by norm_num)).1 hcond
  rw [h]
  have e1 : ⌊(LCD_HEIGHT : ℚ) * (((400 : ℕ) : ℚ) / ((200 : ℕ) : ℚ))⌋ = 560 := by
    norm_num [LCD_HEIGHT]
  rw [e1]
  norm_num [LCD_WIDTH, LCD_HEIGHT]
  decide

end Whisplay
